import Mathlib

/-!
Verification of the preference-pair dataset pipeline
(`openrlhf/datasets/reward_dataset.py`): per-example tokenization with
end-of-sequence enforcement, response-template loss-mask location, padded
collation and packed collation, for both the plain `RewardDataset` and the
multimodal `QwenRewardDataset`.

Tensors of token ids are embedded as `List Int` (a tokenized text is a
single row, so the leading batch dimension of size 1 is dropped).  The
tokenizer / chat-template renderer / vision processor are external
collaborators: their outputs (raw id and mask lists, template token lists,
prompt token counts) are taken as inputs of the embedded functions.
Fallible steps return `Except PyErr`, mirroring the Python exceptions.
-/

namespace OpenRLHF

/-- Python exception kinds raised by the embedded code paths. -/
inductive PyErr where
  | nameError
  | typeError
  | indexError
  | valueError
  | assertionError
  | attributeError
  | keyError
deriving DecidableEq, Repr

/-- State of the Python local variable `end_id` inside `__getitem__`:
either never assigned, assigned `None`, or assigned an index. -/
inductive PyVal where
  | unbound
  | pynone
  | pval (n : Nat)
deriving DecidableEq, Repr

/-- The four syntactic variants of the loss-mask scan in the source.
`resetNone` — `end_id = None` is executed at each match (present in both
reject loops, commented out in both chosen loops);
`fallback` — `if end_id is None: end_id = len - 1` after the scan
(present only in `QwenRewardDataset.__getitem__`). -/
structure MaskCfg where
  resetNone : Bool
  fallback : Bool
deriving DecidableEq, Repr

/-- `RewardDataset.__getitem__`, chosen loop (lines 184-199). -/
def rdChosenCfg : MaskCfg := ⟨false, false⟩

/-- `RewardDataset.__getitem__`, reject loop (lines 201-212). -/
def rdRejectCfg : MaskCfg := ⟨true, false⟩

/-- `QwenRewardDataset.__getitem__`, chosen loop (lines 467-484). -/
def qwenChosenCfg : MaskCfg := ⟨false, true⟩

/-- `QwenRewardDataset.__getitem__`, reject loop (lines 486-499). -/
def qwenRejectCfg : MaskCfg := ⟨true, true⟩

/-- `ids[-1] = v` on a 1-D tensor: `IndexError` on an empty tensor,
otherwise replace the final element. -/
def setLast (xs : List Int) (v : Int) : Except PyErr (List Int) :=
  match xs with
  | [] => .error .indexError
  | _ :: _ => .ok (xs.dropLast ++ [v])

/-- Inner scan of `for j in range(start_id, len(ids)): if ids[j] == eos: ...`,
walking the remaining list while carrying the absolute index `j`. -/
def scanEosFrom (eos : Int) : List Int → Nat → Option Nat
  | [], _ => none
  | x :: rest, j => if x = eos then some j else scanEosFrom eos rest (j + 1)

/-- First index `j ≥ s` with `ids[j] = eos`, `none` if there is none
(the `for j in range(start_id, ...)` loop of the source). -/
def scanEos (ids : List Int) (eos : Int) (s : Nat) : Option Nat :=
  scanEosFrom eos (ids.drop s) s

/-- The source's full-match test at candidate position `m`:
`len(ids[m : m+len(tmpl)]) == len(tmpl) and torch.all(ids[m : m+len(tmpl)] == tmpl)`. -/
def matchAt (ids tmpl : List Int) (m : Nat) : Bool :=
  decide (m + tmpl.length ≤ ids.length) && decide ((ids.drop m).take tmpl.length = tmpl)

/-- `torch.where(ids == tmpl[0])[0]`: the increasing list of positions
holding the template's first token. -/
def candidates (ids : List Int) (t0 : Int) : List Nat :=
  (List.range ids.length).filter (fun p => ids[p]? = some t0)

/-- `mask[s : e+1] = 1` on a 1-D tensor, walking the list with the current
absolute position `q`. -/
def setRangeAux : List Int → Nat → Nat → Nat → List Int
  | [], _, _, _ => []
  | v :: rest, q, s, e => (if s ≤ q ∧ q ≤ e then 1 else v) :: setRangeAux rest (q + 1) s e

/-- Python slice assignment `mask[s : e+1] = 1` (positions `s ≤ p ≤ e`). -/
def setRange (mask : List Int) (s e : Nat) : List Int :=
  setRangeAux mask 0 s e

/-- Loop state of one loss-mask scan: the `end_id` local and the mask row. -/
structure LoopSt where
  endId : PyVal
  mask : List Int
deriving Repr

/-- Resolution of the span end after the end-of-sequence scan of one full
match, per source variant.  `scanResult` is the scan's outcome and `prev`
the value `end_id` held before this candidate (after the `end_id = None`
reset when `cfg.resetNone`).  Reading an unbound `end_id` raises
`NameError`; without the `if end_id is None` fallback, the slice bound
`end_id + 1` on `None` raises `TypeError`. -/
def resolveEnd (cfg : MaskCfg) (len : Nat) (scanResult : Option Nat)
    (prev : PyVal) : Except PyErr Nat :=
  let e1 := match scanResult with
    | some j => PyVal.pval j
    | none => if cfg.resetNone then PyVal.pynone else prev
  if cfg.fallback then
    match e1 with
    | .unbound => .error .nameError
    | .pynone => .ok (len - 1)
    | .pval j => .ok j
  else
    match e1 with
    | .unbound => .error .nameError
    | .pynone => .error .typeError
    | .pval j => .ok j

/-- Body of `for id in torch.where(ids == response_tokens[0])[0]` for one
candidate `m`: verify the full match, locate the span end, commit the span
`mask[start_id : end_id + 1] = 1` and leave `end_id` bound. -/
def processMatch (cfg : MaskCfg) (ids tmpl : List Int) (eos : Int)
    (st : LoopSt) (m : Nat) : Except PyErr LoopSt :=
  if matchAt ids tmpl m then
    match resolveEnd cfg ids.length (scanEos ids eos (m + tmpl.length)) st.endId with
    | .error e => .error e
    | .ok e => .ok ⟨.pval e, setRange st.mask (m + tmpl.length) e⟩
  else
    .ok st

/-- One loss-mask scan (the `if self.response_template is not None` branch of
`__getitem__`, one side): start from an all-zero mask and an unbound
`end_id`, fold the match handler over all candidate positions.
An empty template makes `response_tokens[0]` raise `IndexError`. -/
def computeLossMask (cfg : MaskCfg) (ids tmpl : List Int) (eos : Int) :
    Except PyErr (List Int) :=
  match tmpl with
  | [] => .error .indexError
  | t0 :: _ =>
    match (candidates ids t0).foldlM (processMatch cfg ids tmpl eos)
        ⟨PyVal.unbound, List.replicate ids.length 0⟩ with
    | .error e => .error e
    | .ok st => .ok st.mask

/-- End of the masked span opened by a full match at `m`: the first
end-of-sequence position at or after the match's answer start, or the last
valid index when none exists. -/
def spanEnd (ids tmpl : List Int) (eos : Int) (m : Nat) : Nat :=
  match scanEos ids eos (m + tmpl.length) with
  | some j => j
  | none => ids.length - 1

/-- The tuple returned by `RewardDataset.__getitem__` (lines 222-230):
ids, attention mask, loss mask for each side, plus the `extra` scalar.
Attention and loss masks are integer rows, as in the source tensors. -/
structure GetItemOut where
  chosenIds : List Int
  chosenMask : List Int
  rejectIds : List Int
  rejectMask : List Int
  chosenLoss : List Int
  rejectLoss : List Int
  extra : Int
deriving DecidableEq, Repr

/-- The shared body of `__getitem__` of both dataset variants, parametrized
by the two loss-scan variants.  The external tokenizer/processor call is
modelled by its output on the rendered text: the untruncated id and mask
rows (`truncation=True` keeps the first `maxLen` entries).  Lines 174-178
then overwrite the final id with `eos_token_id` and the final mask entry
with `True` (integer 1), and the loss masks are computed per side
(attention mask reused verbatim when no response template is set). -/
def getitem_core (cfgC cfgR : MaskCfg) (maxLen : Nat) (eosId : Int)
    (respTmpl : Option (List Int))
    (cRawIds cRawMask rRawIds rRawMask : List Int) (extra : Int) :
    Except PyErr GetItemOut :=
  match setLast (cRawIds.take maxLen) eosId, setLast (rRawIds.take maxLen) eosId,
        setLast (cRawMask.take maxLen) 1, setLast (rRawMask.take maxLen) 1 with
  | .ok cIds, .ok rIds, .ok cMask, .ok rMask =>
    (match respTmpl with
     | some tmpl =>
       (match computeLossMask cfgC cIds tmpl eosId with
        | .error e => .error e
        | .ok cLoss =>
          match computeLossMask cfgR rIds tmpl eosId with
          | .error e => .error e
          | .ok rLoss => .ok ⟨cIds, cMask, rIds, rMask, cLoss, rLoss, extra⟩)
     | none => .ok ⟨cIds, cMask, rIds, rMask, cMask, rMask, extra⟩)
  | .error e, _, _, _ => .error e
  | _, .error e, _, _ => .error e
  | _, _, .error e, _ => .error e
  | _, _, _, .error e => .error e

/-- `RewardDataset.__getitem__` (lines 147-230), after the external
tokenizer produced the raw rows for `prompt + chosen` and `prompt + reject`. -/
def rd_getitem (maxLen : Nat) (eosId : Int) (respTmpl : Option (List Int))
    (cRawIds cRawMask rRawIds rRawMask : List Int) (extra : Int) :
    Except PyErr GetItemOut :=
  getitem_core rdChosenCfg rdRejectCfg maxLen eosId respTmpl
    cRawIds cRawMask rRawIds rRawMask extra

/-- `m["type"]` of a content entry of a conversation turn. -/
inductive CType where
  | image
  | text
  | other
deriving DecidableEq, Repr

/-- One entry of a turn's `content` list in `QwenRewardDataset`.  The outer
`Option` models key presence (`"text" in m`), the inner one a present key
holding `None`; payloads are abstracted to `Nat`. -/
structure ContentEntry where
  ctype : CType
  text : Option (Option Nat)
  image : Option (Option Nat)
deriving DecidableEq, Repr

/-- The per-entry validation of `QwenRewardDataset.__getitem__`
(lines 391-406): on an image entry, delete a present-but-`None` text field
and assert the image field is not `None` (a missing image key would raise
`KeyError` at `m["image"]`); independently, delete a present-but-`None`
image field on a text entry. -/
def cleanEntry (m : ContentEntry) : Except PyErr ContentEntry :=
  match (if m.ctype = CType.image then
           (let m1 := if m.text = some none then { m with text := none } else m
            match m1.image with
            | none => Except.error PyErr.keyError
            | some none => Except.error PyErr.assertionError
            | some (some _) => Except.ok m1)
         else Except.ok m) with
  | .error e => .error e
  | .ok m2 =>
    if m2.image = some none ∧ m2.ctype = CType.text then
      .ok { m2 with image := none }
    else
      .ok m2

/-- One conversation turn of a Qwen chosen/rejected record. -/
structure Turn where
  content : List ContentEntry
deriving DecidableEq, Repr

/-- The `for d in chosen: for m in d["content"]: ...` cleaning loops of
`QwenRewardDataset.__getitem__`, propagating the first raised exception. -/
def cleanTurns (ds : List Turn) : Except PyErr (List Turn) :=
  ds.mapM (fun d => do
    let c ← d.content.mapM cleanEntry
    pure (Turn.mk c))

/-- The extractor-native vision tensors carried by a Qwen item
(abstracted to flat integer rows; the core never inspects them). -/
structure QwenExtras where
  chosenPixels : List Int
  rejectPixels : List Int
  chosenGrid : List Int
  rejectGrid : List Int
deriving DecidableEq, Repr

/-- `QwenRewardDataset.__getitem__` (lines 387-521): clean both turn lists,
then run the shared tokenize-and-mask body with the Qwen scan variants; the
processor's vision tensors are passed through unchanged. -/
def qwen_getitem (maxLen : Nat) (eosId : Int) (respTmpl : Option (List Int))
    (chosen reject : List Turn)
    (cRawIds cRawMask rRawIds rRawMask : List Int)
    (vis : QwenExtras) (extra : Int) :
    Except PyErr (GetItemOut × QwenExtras) := do
  let _ ← cleanTurns chosen
  let _ ← cleanTurns reject
  let out ← getitem_core qwenChosenCfg qwenRejectCfg maxLen eosId respTmpl
    cRawIds cRawMask rRawIds rRawMask extra
  pure (out, vis)

/-- Padding side selected by `is_dpo` (right for DPO, left otherwise). -/
inductive PadSide where
  | left
  | right
deriving DecidableEq, Repr

/-- Pad one row to `len` with `v` on the given side. -/
def padTo (s : List Int) (len : Nat) (side : PadSide) (v : Int) : List Int :=
  match side with
  | .right => s ++ List.replicate (len - s.length) v
  | .left => List.replicate (len - s.length) v ++ s

/-- Modelled from the spec: `zero_pad_sequences` from
`openrlhf/datasets/utils.py` is not in the sources; per spec section 4.4 it
pads every sequence to the maximum length present in the field, inserting
the pad value on the configured side, and stacks the rows. -/
def zero_pad_sequences (seqs : List (List Int)) (side : PadSide) (v : Int) :
    List (List Int) :=
  let maxLen := (seqs.map List.length).foldr max 0
  seqs.map (fun s => padTo s maxLen side v)

/-- The batch returned by `RewardDataset.collate_fn` (line 259).  The sixth
slot holds what the source actually returns there: the loop variable
`rejected_loss_mask`, i.e. the **last** item's un-padded reject loss mask
(a one-row batch), not the padded stack computed on line 258. -/
structure CollateOut where
  chosenIds : List (List Int)
  chosenMasks : List (List Int)
  rejectIds : List (List Int)
  rejectsMasks : List (List Int)
  chosenLossMasks : List (List Int)
  rejectLossBatch : List (List Int)
  extras : List Int
deriving DecidableEq, Repr

/-- `RewardDataset.collate_fn` (lines 232-259).  On an empty item list the
loop never binds `rejected_loss_mask` and the return raises `NameError`. -/
def rd_collate_fn (isDpo : Bool) (padId : Int) (itemList : List GetItemOut) :
    Except PyErr CollateOut :=
  match itemList.getLast? with
  | none => .error .nameError
  | some lastItem =>
    let side := if isDpo then PadSide.right else PadSide.left
    .ok
      { chosenIds := zero_pad_sequences (itemList.map (·.chosenIds)) side padId
        chosenMasks := zero_pad_sequences (itemList.map (·.chosenMask)) side 0
        rejectIds := zero_pad_sequences (itemList.map (·.rejectIds)) side padId
        rejectsMasks := zero_pad_sequences (itemList.map (·.rejectMask)) side 0
        chosenLossMasks := zero_pad_sequences (itemList.map (·.chosenLoss)) side 0
        rejectLossBatch := [lastItem.rejectLoss]
        extras := itemList.map (·.extra) }

/-- A Python object appearing in an item tuple: a tensor row or a scalar. -/
inductive PyObj where
  | tensor (t : List Int)
  | scalar (v : Int)
deriving DecidableEq, Repr

/-- One well-formed packed-collation item after unpacking (chosen ids,
reject ids and the `extra` object are the only slots the loop body reads;
the two mask slots are destructured but never used). -/
structure PackItem where
  chosenIds : List Int
  rejectIds : List Int
  extra : PyObj
deriving DecidableEq, Repr

/-- The packed batch returned by `packing_collate_fn`. -/
structure PackOut where
  packedIds : List Int
  packedSegs : List Int
  packedSeqLens : List Nat
  extras : List PyObj
deriving DecidableEq, Repr

/-- The running `index` of the `packing_collate_fn` loop: the segment row
for each sequence is `torch.full_like(seq, index)` with `index` starting at
`k0` and incrementing once per item.  (The source computes the rejected
row's id as `index + len(item_list)` inside the same loop, which equals a
run of this helper started at `1 + len(item_list)`.) -/
def segRows (f : PackItem → List Int) : List PackItem → Int → List (List Int)
  | [], _ => []
  | it :: rest, k => List.replicate (f it).length k :: segRows f rest (k + 1)

/-- Loop and tail of `packing_collate_fn` (lines 261-291) on well-formed
items: the k-th chosen row (0-based `k`) gets segment id `k + 1`, the k-th
rejected row `k + 1 + len(item_list)`; all chosen rows are concatenated,
then all rejected rows; then right-alignment padding to `multiple_of` with
the pad id on the id row and 0 on the segment row. -/
def packing_collate_core (items : List PackItem) (multipleOf : Nat)
    (padId : Int) : PackOut :=
  let n := items.length
  let chosenIds := items.map (·.chosenIds)
  let chosenAtt := segRows (·.chosenIds) items 1
  let chosenLens := items.map (·.chosenIds.length)
  let rejectedIds := items.map (·.rejectIds)
  let rejectedAtt := segRows (·.rejectIds) items (1 + (n : Int))
  let rejectedLens := items.map (·.rejectIds.length)
  let packedIds := (chosenIds ++ rejectedIds).flatten
  let packedSegs := (chosenAtt ++ rejectedAtt).flatten
  if multipleOf > 1 ∧ packedIds.length % multipleOf ≠ 0 then
    let padLen := multipleOf - packedIds.length % multipleOf
    ⟨packedIds ++ List.replicate padLen padId,
     packedSegs ++ List.replicate padLen 0,
     chosenLens ++ rejectedLens,
     items.map (·.extra)⟩
  else
    ⟨packedIds, packedSegs, chosenLens ++ rejectedLens, items.map (·.extra)⟩

/-- Length and segment id of each packed run, in packing order: one pair
per chosen sequence (ids `1..N` in list order) followed by one pair per
rejected sequence (ids `N+1..2N`). -/
def segSpecFrom (f : PackItem → List Int) : List PackItem → Int → List (Nat × Int)
  | [], _ => []
  | it :: rest, k => ((f it).length, k) :: segSpecFrom f rest (k + 1)

/-- The run structure of a packed batch: `2 × N` (length, segment id)
pairs, chosen runs first. -/
def segSpec (items : List PackItem) : List (Nat × Int) :=
  segSpecFrom (·.chosenIds) items 1 ++
    segSpecFrom (·.rejectIds) items (1 + (items.length : Int))

/-- `[k, k+1, ..., k+n-1]` over `Int`. -/
def intRange : Int → Nat → List Int
  | _, 0 => []
  | k, n + 1 => k :: intRange (k + 1) n

/-- The destructuring `for chosen_id, chosen_mask, reject_id, rejects_mask,
extra in item_list` applied to one item: a Python unpacking of anything but
a 5-tuple raises `ValueError`. -/
def unpack5 (t : List PyObj) :
    Except PyErr (PyObj × PyObj × PyObj × PyObj × PyObj) :=
  match t with
  | [a, b, c, d, e] => .ok (a, b, c, d, e)
  | _ => .error .valueError

/-- `.flatten()` is a tensor method: calling it on a scalar raises
`AttributeError`. -/
def asTensor : PyObj → Except PyErr (List Int)
  | .tensor t => .ok t
  | .scalar _ => .error .attributeError

/-- `packing_collate_fn` on raw item tuples: unpack each item into exactly
five values, flatten the id slots, then run the packing loop. -/
def packing_collate_fn (itemList : List (List PyObj)) (multipleOf : Nat)
    (padId : Int) : Except PyErr PackOut := do
  let items ← itemList.mapM (fun t => do
    let (a, _b, c, _d, e) ← unpack5 t
    let cIds ← asTensor a
    let rIds ← asTensor c
    pure (PackItem.mk cIds rIds e))
  pure (packing_collate_core items multipleOf padId)

/-- The 7-tuple `RewardDataset.__getitem__` returns (lines 222-230), as a
raw Python tuple. -/
def rd_item_tuple (o : GetItemOut) : List PyObj :=
  [.tensor o.chosenIds, .tensor o.chosenMask, .tensor o.rejectIds,
   .tensor o.rejectMask, .tensor o.chosenLoss, .tensor o.rejectLoss,
   .scalar o.extra]

/-- The 11-tuple `QwenRewardDataset.__getitem__` returns (lines 509-521). -/
def qwen_item_tuple (o : GetItemOut) (q : QwenExtras) : List PyObj :=
  [.tensor o.chosenIds, .tensor o.chosenMask, .tensor o.rejectIds,
   .tensor o.rejectMask, .tensor o.chosenLoss, .tensor o.rejectLoss,
   .tensor q.chosenPixels, .tensor q.rejectPixels,
   .tensor q.chosenGrid, .tensor q.rejectGrid, .scalar o.extra]

/-- A raw record as `process_data` sees it, with the external tokenizer's
output on the prompt abstracted to its attention-mask token count.
`marginField` is `none` when the `margin` key is absent or `None`
(`exist_and_not_none` from `openrlhf/datasets/utils.py`, not in the
sources; modelled from the spec: margin defaults to 0 when absent). -/
structure RawRecord where
  prompt : Nat
  chosen : Nat
  reject : Nat
  promptTokenCount : Nat
  marginField : Option Int
deriving DecidableEq, Repr

/-- A row of the mapped dataset (`process_data`'s returned dict); `prompt`
is `none` for the dropped-sample sentinel. -/
structure ProcessedRow where
  prompt : Option Nat
  chosen : Nat
  reject : Nat
  extra : Int
deriving DecidableEq, Repr

/-- `RewardDataset.process_data` (lines 110-141): in DPO mode, mark the
prompt absent when its token count reaches `max_length - 2` and report the
token count as `extra`; otherwise keep the prompt and report the margin. -/
def process_data (isDpo : Bool) (maxLength : Nat) (r : RawRecord) :
    ProcessedRow :=
  if isDpo then
    { prompt := if (maxLength : Int) - 2 ≤ (r.promptTokenCount : Int)
                then none else some r.prompt
      chosen := r.chosen
      reject := r.reject
      extra := (r.promptTokenCount : Int) }
  else
    { prompt := some r.prompt
      chosen := r.chosen
      reject := r.reject
      extra := r.marginField.getD 0 }

/-- The dataset construction of `RewardDataset.__init__` (lines 97-102):
map `process_data` over the records, then filter out rows whose prompt is
the absent sentinel. -/
def buildDataset (isDpo : Bool) (maxLength : Nat) (records : List RawRecord) :
    List ProcessedRow :=
  (records.map (process_data isDpo maxLength)).filter (fun x => x.prompt.isSome)

/-- Invariant of the candidate fold inside a loss-mask scan: after the
candidates in `done` have been handled, the mask row has the sequence's
length and holds 1 exactly on the positions covered by the span of some
already-handled full match. -/
def MaskInv (ids tmpl : List Int) (eos : Int) (done : List Nat)
    (st : LoopSt) : Prop :=
  st.mask.length = ids.length ∧
  ∀ p, p < ids.length →
    (st.mask.getD p 0 = 1 ↔ ∃ m ∈ done, matchAt ids tmpl m = true ∧
      m + tmpl.length ≤ p ∧ p ≤ spanEnd ids tmpl eos m)

theorem setLast_ok {xs ys : List Int} {v : Int} (h : setLast xs v = .ok ys) :
    ys.getLast? = some v ∧ ys.length = xs.length := by
  cases xs with
  | nil => simp [setLast] at h
  | cons a as =>
    simp only [setLast, Except.ok.injEq] at h
    subst h
    constructor
    · simp
    · simp [List.length_dropLast]

theorem getD_replicate_zero (n p : Nat) :
    (List.replicate n (0 : Int)).getD p 0 = 0 := by
  induction n generalizing p with
  | zero => simp [List.getD]
  | succ n ih =>
    cases p with
    | zero => simp [List.replicate]
    | succ p => simp [List.replicate, ih p]

theorem setRangeAux_length (mask : List Int) (q s e : Nat) :
    (setRangeAux mask q s e).length = mask.length := by
  induction mask generalizing q with
  | nil => rfl
  | cons v rest ih => simp [setRangeAux, ih]

theorem setRangeAux_getD (mask : List Int) (q s e p : Nat)
    (hp : p < mask.length) :
    (setRangeAux mask q s e).getD p 0 =
      if s ≤ q + p ∧ q + p ≤ e then (1 : Int) else mask.getD p 0 := by
  induction mask generalizing q p with
  | nil => simp at hp
  | cons v rest ih =>
    cases p with
    | zero => simp [setRangeAux]
    | succ p =>
      have harith : q + 1 + p = q + (p + 1) := by omega
      have hp' : p < rest.length := by simpa using hp
      simpa [setRangeAux, harith] using ih (q + 1) p hp'

theorem setRange_length (mask : List Int) (s e : Nat) :
    (setRange mask s e).length = mask.length :=
  setRangeAux_length mask 0 s e

theorem setRange_getD (mask : List Int) (s e p : Nat) (hp : p < mask.length) :
    (setRange mask s e).getD p 0 =
      if s ≤ p ∧ p ≤ e then (1 : Int) else mask.getD p 0 := by
  simpa using setRangeAux_getD mask 0 s e p hp

theorem scanEosFrom_eq_none {eos : Int} {l : List Int} {j : Nat}
    (h : scanEosFrom eos l j = none) : ∀ x ∈ l, x ≠ eos := by
  induction l generalizing j with
  | nil => simp
  | cons x rest ih =>
    simp only [scanEosFrom] at h
    split at h
    · exact absurd h (by simp)
    · intro y hy
      rcases List.mem_cons.mp hy with rfl | hy'
      · assumption
      · exact ih h y hy'

theorem scanEos_none_ge {ids : List Int} {eos : Int} {s : Nat}
    (hlast : ids.getLast? = some eos) (h : scanEos ids eos s = none) :
    ids.length ≤ s := by
  by_contra hlt
  push_neg at hlt
  have hidx : ids[ids.length - 1]? = some eos := by
    rwa [List.getLast?_eq_getElem? ids] at hlast
  have hdropidx : (ids.drop s)[ids.length - 1 - s]? = some eos := by
    rw [List.getElem?_drop]
    have : s + (ids.length - 1 - s) = ids.length - 1 := by omega
    rw [this]; exact hidx
  have hmem : eos ∈ ids.drop s := by
    obtain ⟨hlt', he⟩ := List.getElem?_eq_some_iff.mp hdropidx
    exact he ▸ List.getElem_mem hlt'
  exact scanEosFrom_eq_none h eos hmem rfl

theorem matchAt_le {ids tmpl : List Int} {m : Nat}
    (h : matchAt ids tmpl m = true) : m + tmpl.length ≤ ids.length := by
  simp only [matchAt, Bool.and_eq_true, decide_eq_true_eq] at h
  exact h.1

theorem matchAt_mem_candidates {ids : List Int} {t0 : Int} {rest : List Int}
    {m : Nat} (h : matchAt ids (t0 :: rest) m = true) :
    m ∈ candidates ids t0 := by
  simp only [matchAt, Bool.and_eq_true, decide_eq_true_eq] at h
  obtain ⟨hle, heq⟩ := h
  have hmlt : m < ids.length := by
    simp only [List.length_cons] at hle; omega
  have h0 : ((ids.drop m).take (t0 :: rest).length)[0]? = some t0 := by
    rw [heq]; simp
  have h1 : (ids.drop m)[0]? = some t0 := by
    rwa [List.getElem?_take, if_pos (by simp)] at h0
  have h2 : ids[m]? = some t0 := by
    rw [List.getElem?_drop] at h1
    simpa using h1
  simp [candidates, List.mem_filter, List.mem_range, hmlt, h2]

theorem maskInv_extend {ids tmpl : List Int} {eos : Int}
    {done : List Nat} {st : LoopSt} {a : Nat}
    (hmatch : matchAt ids tmpl a = true) (x : PyVal) (E : Nat)
    (hE : scanEos ids eos (a + tmpl.length) = some E ∨
      ids.length ≤ a + tmpl.length)
    (hInv : MaskInv ids tmpl eos done st) :
    MaskInv ids tmpl eos (done ++ [a])
      ⟨x, setRange st.mask (a + tmpl.length) E⟩ := by
  obtain ⟨hlen, hiff⟩ := hInv
  refine ⟨by simp [setRange_length, hlen], ?_⟩
  intro p hp
  have hp' : p < st.mask.length := by omega
  rw [setRange_getD st.mask (a + tmpl.length) E p hp']
  have hsplit : (∃ m ∈ done ++ [a], matchAt ids tmpl m = true ∧
      m + tmpl.length ≤ p ∧ p ≤ spanEnd ids tmpl eos m) ↔
      ((∃ m ∈ done, matchAt ids tmpl m = true ∧
        m + tmpl.length ≤ p ∧ p ≤ spanEnd ids tmpl eos m) ∨
       (a + tmpl.length ≤ p ∧ p ≤ spanEnd ids tmpl eos a)) := by
    constructor
    · rintro ⟨m, hm, hrest⟩
      rcases List.mem_append.mp hm with hmem | hmem
      · exact Or.inl ⟨m, hmem, hrest⟩
      · rcases List.mem_singleton.mp hmem with rfl
        exact Or.inr ⟨hrest.2.1, hrest.2.2⟩
    · rintro (⟨m, hmem, hrest⟩ | ⟨h1, h2⟩)
      · exact ⟨m, List.mem_append_left _ hmem, hrest⟩
      · exact ⟨a, List.mem_append_right _ (List.mem_singleton.mpr rfl),
          hmatch, h1, h2⟩
  rw [hsplit]
  rcases hE with hsome | hflush
  · have hspan : spanEnd ids tmpl eos a = E := by
      unfold spanEnd; rw [hsome]
    rw [hspan]
    by_cases hc : a + tmpl.length ≤ p ∧ p ≤ E
    · simp [hc]
    · rw [if_neg hc, hiff p hp]
      constructor
      · exact Or.inl
      · rintro (h | h)
        · exact h
        · exact absurd h hc
  · have hnotin : ¬(a + tmpl.length ≤ p) := by omega
    rw [if_neg (by tauto), hiff p hp]
    constructor
    · exact Or.inl
    · rintro (h | h)
      · exact h
      · exact absurd h.1 hnotin

theorem resolveEnd_some (cfg : MaskCfg) (len j : Nat) (prev : PyVal) :
    resolveEnd cfg len (some j) prev = .ok j := by
  cases hfb : cfg.fallback <;> simp [resolveEnd, hfb]

theorem processMatch_inv (cfg : MaskCfg) {ids tmpl : List Int} {eos : Int}
    (hlast : ids.getLast? = some eos) {done : List Nat} {st st' : LoopSt}
    {a : Nat} (hInv : MaskInv ids tmpl eos done st)
    (hstep : processMatch cfg ids tmpl eos st a = .ok st') :
    MaskInv ids tmpl eos (done ++ [a]) st' := by
  unfold processMatch at hstep
  by_cases hm : matchAt ids tmpl a = true
  · rw [if_pos hm] at hstep
    cases hres : resolveEnd cfg ids.length (scanEos ids eos (a + tmpl.length))
        st.endId with
    | error e => rw [hres] at hstep; exact Except.noConfusion hstep
    | ok E =>
      rw [hres] at hstep
      obtain rfl := Except.ok.inj hstep
      cases hscan : scanEos ids eos (a + tmpl.length) with
      | some j =>
        have hEj : j = E := by
          rw [hscan, resolveEnd_some] at hres
          exact Except.ok.inj hres
        subst hEj
        exact maskInv_extend hm _ j (Or.inl hscan) hInv
      | none =>
        exact maskInv_extend hm _ E (Or.inr (scanEos_none_ge hlast hscan)) hInv
  · rw [if_neg hm] at hstep
    simp only [Except.ok.injEq] at hstep
    obtain rfl := hstep
    obtain ⟨hlen, hiff⟩ := hInv
    refine ⟨hlen, ?_⟩
    intro p hp
    rw [hiff p hp]
    constructor
    · rintro ⟨m, hmem, hrest⟩
      exact ⟨m, List.mem_append_left _ hmem, hrest⟩
    · rintro ⟨m, hmem, hrest⟩
      rcases List.mem_append.mp hmem with hmem' | hmem'
      · exact ⟨m, hmem', hrest⟩
      · rcases List.mem_singleton.mp hmem' with rfl
        exact absurd hrest.1 hm

theorem foldlM_maskInv (cfg : MaskCfg) {ids tmpl : List Int} {eos : Int}
    (hlast : ids.getLast? = some eos) :
    ∀ (l done : List Nat) (st st' : LoopSt),
      MaskInv ids tmpl eos done st →
      List.foldlM (processMatch cfg ids tmpl eos) st l = .ok st' →
      MaskInv ids tmpl eos (done ++ l) st' := by
  intro l
  induction l with
  | nil =>
    intro done st st' hInv hfold
    rw [List.foldlM_nil] at hfold
    obtain rfl : st = st' := Except.ok.inj hfold
    simpa using hInv
  | cons a l ih =>
    intro done st st' hInv hfold
    rw [List.foldlM_cons] at hfold
    cases hpm : processMatch cfg ids tmpl eos st a with
    | error e => rw [hpm] at hfold; exact Except.noConfusion hfold
    | ok s1 =>
      rw [hpm] at hfold
      have h1 := processMatch_inv cfg hlast hInv hpm
      have h2 := ih (done ++ [a]) s1 st' h1 hfold
      simpa [List.append_assoc] using h2

theorem computeLossMask_spans (cfg : MaskCfg) {ids tmpl : List Int}
    {eos : Int} {lm : List Int} (hlast : ids.getLast? = some eos)
    (hok : computeLossMask cfg ids tmpl eos = .ok lm) :
    lm.length = ids.length ∧
    ∀ p, p < ids.length →
      (lm.getD p 0 = 1 ↔ ∃ m, matchAt ids tmpl m = true ∧
        m + tmpl.length ≤ p ∧ p ≤ spanEnd ids tmpl eos m) := by
  cases tmpl with
  | nil => exact absurd hok (by simp [computeLossMask])
  | cons t0 rest =>
    simp only [computeLossMask] at hok
    cases hfold : (candidates ids t0).foldlM
        (processMatch cfg ids (t0 :: rest) eos)
        ⟨PyVal.unbound, List.replicate ids.length 0⟩ with
    | error e => rw [hfold] at hok; exact absurd hok (by simp)
    | ok st =>
      rw [hfold] at hok
      obtain rfl : st.mask = lm := Except.ok.inj hok
      have h0 : MaskInv ids (t0 :: rest) eos []
          ⟨PyVal.unbound, List.replicate ids.length 0⟩ := by
        refine ⟨by simp, ?_⟩
        intro p hp
        simp [getD_replicate_zero]
      have hInv := foldlM_maskInv cfg hlast (candidates ids t0) [] _ st h0 hfold
      obtain ⟨hlen, hiff⟩ := hInv
      refine ⟨hlen, ?_⟩
      intro p hp
      rw [hiff p hp]
      constructor
      · rintro ⟨m, _, hrest⟩
        exact ⟨m, hrest⟩
      · rintro ⟨m, hmatch, hrest⟩
        exact ⟨m, by simpa using matchAt_mem_candidates hmatch, hmatch, hrest⟩

theorem getitem_core_ok {cfgC cfgR : MaskCfg} {maxLen : Nat} {eosId : Int}
    {respTmpl : Option (List Int)}
    {cRawIds cRawMask rRawIds rRawMask : List Int} {extra : Int}
    {out : GetItemOut}
    (hok : getitem_core cfgC cfgR maxLen eosId respTmpl
      cRawIds cRawMask rRawIds rRawMask extra = .ok out) :
    setLast (cRawIds.take maxLen) eosId = .ok out.chosenIds ∧
    setLast (rRawIds.take maxLen) eosId = .ok out.rejectIds ∧
    setLast (cRawMask.take maxLen) 1 = .ok out.chosenMask ∧
    setLast (rRawMask.take maxLen) 1 = .ok out.rejectMask ∧
    ((∃ tmpl, respTmpl = some tmpl ∧
        computeLossMask cfgC out.chosenIds tmpl eosId = .ok out.chosenLoss ∧
        computeLossMask cfgR out.rejectIds tmpl eosId = .ok out.rejectLoss) ∨
      (respTmpl = none ∧ out.chosenLoss = out.chosenMask ∧
        out.rejectLoss = out.rejectMask)) := by
  unfold getitem_core at hok
  cases h1 : setLast (cRawIds.take maxLen) eosId with
  | error e => rw [h1] at hok; exact absurd hok (by simp)
  | ok cIds =>
  cases h2 : setLast (rRawIds.take maxLen) eosId with
  | error e => rw [h1, h2] at hok; exact absurd hok (by simp)
  | ok rIds =>
  cases h3 : setLast (cRawMask.take maxLen) 1 with
  | error e => rw [h1, h2, h3] at hok; exact absurd hok (by simp)
  | ok cMask =>
  cases h4 : setLast (rRawMask.take maxLen) 1 with
  | error e => rw [h1, h2, h3, h4] at hok; exact absurd hok (by simp)
  | ok rMask =>
  rw [h1, h2, h3, h4] at hok
  cases respTmpl with
  | none =>
    simp only [Except.ok.injEq] at hok
    subst hok
    exact ⟨rfl, rfl, rfl, rfl, Or.inr ⟨rfl, rfl, rfl⟩⟩
  | some tmpl =>
    simp only [] at hok
    cases h5 : computeLossMask cfgC cIds tmpl eosId with
    | error e => rw [h5] at hok; exact absurd hok (by simp)
    | ok cLoss =>
    cases h6 : computeLossMask cfgR rIds tmpl eosId with
    | error e => rw [h5, h6] at hok; exact absurd hok (by simp)
    | ok rLoss =>
      rw [h5, h6] at hok
      simp only [Except.ok.injEq] at hok
      subst hok
      exact ⟨rfl, rfl, rfl, rfl, Or.inl ⟨tmpl, rfl, h5, h6⟩⟩

/-- C1: on every tokenized side `__getitem__` produces when a response
template is configured (any of the four scan variants), the loss mask holds
1 exactly on the positions lying strictly after a verified contiguous full
match of the template — at or beyond the match's answer start — and at or
before the first end-of-sequence id at or after that answer start (the last
valid index when no end-of-sequence id follows); every other position is 0. -/
theorem c1_template_spans (cfgC cfgR : MaskCfg) (maxLen : Nat) (eosId : Int)
    (tmpl cRawIds cRawMask rRawIds rRawMask : List Int) (extra : Int)
    (out : GetItemOut)
    (hok : getitem_core cfgC cfgR maxLen eosId (some tmpl)
      cRawIds cRawMask rRawIds rRawMask extra = .ok out) :
    (out.chosenLoss.length = out.chosenIds.length ∧
      ∀ p, p < out.chosenIds.length →
        (out.chosenLoss.getD p 0 = 1 ↔
          ∃ m, matchAt out.chosenIds tmpl m = true ∧ m + tmpl.length ≤ p ∧
            p ≤ spanEnd out.chosenIds tmpl eosId m)) ∧
    (out.rejectLoss.length = out.rejectIds.length ∧
      ∀ p, p < out.rejectIds.length →
        (out.rejectLoss.getD p 0 = 1 ↔
          ∃ m, matchAt out.rejectIds tmpl m = true ∧ m + tmpl.length ≤ p ∧
            p ≤ spanEnd out.rejectIds tmpl eosId m)) := by
  obtain ⟨h1, h2, _, _, hloss⟩ := getitem_core_ok hok
  rcases hloss with ⟨tmpl', htmpl, hc, hr⟩ | ⟨hnone, _⟩
  · obtain rfl : tmpl = tmpl' := Option.some.inj htmpl
    exact ⟨computeLossMask_spans cfgC (setLast_ok h1).1 hc,
      computeLossMask_spans cfgR (setLast_ok h2).1 hr⟩
  · exact absurd hnone (by simp)

theorem c1_witness :
    (([0, 0, 1, 1] : List Int).length = ([5, 7, 9, 2] : List Int).length ∧
      ∀ p, p < ([5, 7, 9, 2] : List Int).length →
        (([0, 0, 1, 1] : List Int).getD p 0 = 1 ↔
          ∃ m, matchAt [5, 7, 9, 2] [7] m = true ∧ m + ([7] : List Int).length ≤ p ∧
            p ≤ spanEnd [5, 7, 9, 2] [7] 2 m)) ∧
    (([0, 0, 1] : List Int).length = ([5, 7, 2] : List Int).length ∧
      ∀ p, p < ([5, 7, 2] : List Int).length →
        (([0, 0, 1] : List Int).getD p 0 = 1 ↔
          ∃ m, matchAt [5, 7, 2] [7] m = true ∧ m + ([7] : List Int).length ≤ p ∧
            p ≤ spanEnd [5, 7, 2] [7] 2 m)) :=
  c1_template_spans rdChosenCfg rdRejectCfg 10 2 [7]
    [5, 7, 9, 4] [1, 1, 1, 1] [5, 7, 4] [1, 1, 1] 0
    ⟨[5, 7, 9, 2], [1, 1, 1, 1], [5, 7, 2], [1, 1, 1], [0, 0, 1, 1], [0, 0, 1], 0⟩
    rfl

/-- C2: every item `__getitem__` returns ends, on both the chosen and the
rejected side, with the end-of-sequence id as its final input id and a true
(1) final attention-mask entry — the overrides of lines 174-178 / 457-461
are unconditional after truncation, whatever the raw tokenization was. -/
theorem c2_eos_enforced (cfgC cfgR : MaskCfg) (maxLen : Nat) (eosId : Int)
    (respTmpl : Option (List Int))
    (cRawIds cRawMask rRawIds rRawMask : List Int) (extra : Int)
    (out : GetItemOut)
    (hok : getitem_core cfgC cfgR maxLen eosId respTmpl
      cRawIds cRawMask rRawIds rRawMask extra = .ok out) :
    out.chosenIds.getLast? = some eosId ∧
    out.chosenMask.getLast? = some 1 ∧
    out.rejectIds.getLast? = some eosId ∧
    out.rejectMask.getLast? = some 1 := by
  obtain ⟨h1, h2, h3, h4, _⟩ := getitem_core_ok hok
  exact ⟨(setLast_ok h1).1, (setLast_ok h3).1, (setLast_ok h2).1,
    (setLast_ok h4).1⟩

theorem c2_witness :
    ([5, 6, 2] : List Int).getLast? = some 2 ∧
    ([1, 1, 1] : List Int).getLast? = some 1 ∧
    ([5, 2] : List Int).getLast? = some 2 ∧
    ([1, 1] : List Int).getLast? = some 1 :=
  c2_eos_enforced rdChosenCfg rdRejectCfg 3 2 none
    [5, 6, 7, 8, 9] [1, 1, 1, 1, 1] [5, 6] [1, 1] 0
    ⟨[5, 6, 2], [1, 1, 1], [5, 2], [1, 1], [1, 1, 1], [1, 1], 0⟩ rfl

/-- C5: when no response template is configured, the loss mask returned by
`__getitem__` is exactly the attention mask, on both sides (lines 216-218
and 503-505 alias the attention-mask tensors). -/
theorem c5_loss_mask_is_attention_mask (cfgC cfgR : MaskCfg) (maxLen : Nat)
    (eosId : Int) (cRawIds cRawMask rRawIds rRawMask : List Int) (extra : Int)
    (out : GetItemOut)
    (hok : getitem_core cfgC cfgR maxLen eosId none
      cRawIds cRawMask rRawIds rRawMask extra = .ok out) :
    out.chosenLoss = out.chosenMask ∧ out.rejectLoss = out.rejectMask := by
  obtain ⟨_, _, _, _, hloss⟩ := getitem_core_ok hok
  rcases hloss with ⟨tmpl', htmpl, _, _⟩ | ⟨_, hc, hr⟩
  · exact absurd htmpl (by simp)
  · exact ⟨hc, hr⟩

theorem c5_witness :
    ([1, 1, 1] : List Int) = ([1, 1, 1] : List Int) ∧
    ([1, 1] : List Int) = ([1, 1] : List Int) :=
  c5_loss_mask_is_attention_mask rdChosenCfg rdRejectCfg 3 2
    [5, 6, 7, 8, 9] [1, 1, 1, 1, 1] [5, 6] [1, 1] 0
    ⟨[5, 6, 2], [1, 1, 1], [5, 2], [1, 1], [1, 1, 1], [1, 1], 0⟩ rfl

/-- C3: the "mask through the last valid index" fallback exists only in the
`QwenRewardDataset` reject loop.  On the template-matches-at-sequence-end
input (reject ids `[5, 9, 2]`, eos id 2, template tokens `[9, 2]`, so the
answer start equals the length and no end-of-sequence id follows), the
`RewardDataset` reject loop raises `TypeError` (`end_id` is `None` in
`end_id + 1`), both chosen loops raise `NameError` (`end_id` never bound),
and only the Qwen reject loop completes; the same input raises `TypeError`
out of `RewardDataset.__getitem__` once the chosen side passes. -/
theorem c3_fallback_only_qwen_reject :
    computeLossMask rdRejectCfg [5, 9, 2] [9, 2] 2 = .error .typeError ∧
    computeLossMask rdChosenCfg [5, 9, 2] [9, 2] 2 = .error .nameError ∧
    computeLossMask qwenChosenCfg [5, 9, 2] [9, 2] 2 = .error .nameError ∧
    computeLossMask qwenRejectCfg [5, 9, 2] [9, 2] 2 = .ok [0, 0, 0] ∧
    rd_getitem 10 2 (some [9, 2]) [5, 5, 2] [1, 1, 1] [5, 9, 9] [1, 1, 1] 0
      = .error .typeError :=
  ⟨rfl, rfl, rfl, rfl, rfl⟩

/-- C9: in the Qwen content validation, an image-typed entry whose image
field is present but null fails the assertion; a null text field on an
image entry (with a non-null image) and a null image field on a text entry
are deleted without raising. -/
theorem c9_image_turn_validation (m : ContentEntry) :
    (m.ctype = CType.image → m.image = some none →
      cleanEntry m = .error .assertionError) ∧
    (∀ v : Nat, m.ctype = CType.image → m.text = some none →
      m.image = some (some v) → cleanEntry m = .ok { m with text := none }) ∧
    (m.ctype = CType.text → m.image = some none →
      cleanEntry m = .ok { m with image := none }) := by
  obtain ⟨t, txt, img⟩ := m
  refine ⟨?_, ?_, ?_⟩
  · intro h1 h2
    dsimp only at h1 h2
    subst h1; subst h2
    by_cases htxt : txt = some none <;> simp [cleanEntry, htxt]
  · intro v h1 h2 h3
    dsimp only at h1 h2 h3
    subst h1; subst h2; subst h3
    simp [cleanEntry]
  · intro h1 h2
    dsimp only at h1 h2
    subst h1; subst h2
    simp [cleanEntry]

theorem c9_witness :
    cleanEntry ⟨CType.image, none, some none⟩ = .error .assertionError ∧
    cleanEntry ⟨CType.image, some none, some (some 3)⟩
      = .ok ⟨CType.image, none, some (some 3)⟩ ∧
    cleanEntry ⟨CType.text, some (some 1), some none⟩
      = .ok ⟨CType.text, some (some 1), none⟩ :=
  ⟨(c9_image_turn_validation ⟨CType.image, none, some none⟩).1 rfl rfl,
   (c9_image_turn_validation ⟨CType.image, some none, some (some 3)⟩).2.1 3
     rfl rfl rfl,
   (c9_image_turn_validation ⟨CType.text, some (some 1), some none⟩).2.2
     rfl rfl⟩

/-- C8: in DPO mode `process_data` marks the prompt absent exactly when the
prompt's attention-mask token count reaches `max_length - 2`; the dataset
construction filters those rows out (no row of the built dataset has an
absent prompt), and the surviving `extra` is the prompt token count in DPO
mode and the (defaulted) margin otherwise. -/
theorem c8_dpo_prompt_filter (isDpo : Bool) (maxLength : Nat) (r : RawRecord)
    (records : List RawRecord) :
    ((process_data isDpo maxLength r).prompt = none ↔
      (isDpo = true ∧ (maxLength : Int) - 2 ≤ (r.promptTokenCount : Int))) ∧
    (∀ row ∈ buildDataset isDpo maxLength records, row.prompt ≠ none) ∧
    ((process_data isDpo maxLength r).extra =
      if isDpo then (r.promptTokenCount : Int) else r.marginField.getD 0) := by
  refine ⟨?_, ?_, ?_⟩
  · cases isDpo with
    | false => simp [process_data]
    | true =>
      by_cases hlen : (maxLength : Int) - 2 ≤ (r.promptTokenCount : Int) <;>
        simp [process_data, hlen]
  · intro row hrow
    simp only [buildDataset, List.mem_filter] at hrow
    exact Option.isSome_iff_ne_none.mp hrow.2
  · cases isDpo with
    | false => simp [process_data]
    | true =>
      by_cases hlen : (maxLength : Int) - 2 ≤ (r.promptTokenCount : Int) <;>
        simp [process_data, hlen]

theorem c8_witness :
    ((process_data true 4 ⟨1, 2, 3, 2, none⟩).prompt = none ↔
      (true = true ∧ (4 : Int) - 2 ≤ ((2 : Nat) : Int))) ∧
    (∀ row ∈ buildDataset true 4 [⟨1, 2, 3, 2, none⟩, ⟨1, 2, 3, 1, some 5⟩],
      row.prompt ≠ none) ∧
    ((process_data true 4 ⟨1, 2, 3, 2, none⟩).extra =
      if true then ((2 : Nat) : Int) else (none : Option Int).getD 0) :=
  c8_dpo_prompt_filter true 4 ⟨1, 2, 3, 2, none⟩
    [⟨1, 2, 3, 2, none⟩, ⟨1, 2, 3, 1, some 5⟩]

/-- C4: `collate_fn` pads the first five tensor fields as claimed, but its
return statement names the loop variable `rejected_loss_mask` instead of
the padded stack `reject_loss_masks` computed the line before, so the sixth
returned field is the **last** item's un-padded reject loss mask (a single
row), not one padded row per input item.  On a two-item batch whose reject
loss masks are `[0]` and `[1, 1]`, the function returns `[[1, 1]]` in that
slot while the padded stack of the field is `[[0, 0], [1, 1]]`. -/
theorem c4_reject_loss_mask_not_padded :
    rd_collate_fn false 0
      [⟨[1, 2], [1, 1], [3], [1], [0, 1], [0], 7⟩,
       ⟨[4], [1], [5, 6], [1, 1], [1], [1, 1], 8⟩]
      = .ok ⟨[[1, 2], [0, 4]], [[1, 1], [0, 1]], [[0, 3], [5, 6]],
             [[0, 1], [1, 1]], [[0, 1], [0, 1]], [[1, 1]], [7, 8]⟩ ∧
    zero_pad_sequences [[0], [1, 1]] PadSide.left 0 = [[0, 0], [1, 1]] ∧
    ([[1, 1]] : List (List Int)) ≠ [[0, 0], [1, 1]] :=
  ⟨rfl, rfl, by decide⟩

theorem packing_collate_core_def (items : List PackItem) (m : Nat)
    (padId : Int) :
    packing_collate_core items m padId =
      if 1 < m ∧ ((items.map (·.chosenIds) ++ items.map (·.rejectIds)).flatten.length % m ≠ 0) then
        ⟨(items.map (·.chosenIds) ++ items.map (·.rejectIds)).flatten ++
           List.replicate
             (m - (items.map (·.chosenIds) ++ items.map (·.rejectIds)).flatten.length % m)
             padId,
         (segRows (·.chosenIds) items 1 ++
            segRows (·.rejectIds) items (1 + (items.length : Int))).flatten ++
           List.replicate
             (m - (items.map (·.chosenIds) ++ items.map (·.rejectIds)).flatten.length % m)
             0,
         items.map (·.chosenIds.length) ++ items.map (·.rejectIds.length),
         items.map (·.extra)⟩
      else
        ⟨(items.map (·.chosenIds) ++ items.map (·.rejectIds)).flatten,
         (segRows (·.chosenIds) items 1 ++
            segRows (·.rejectIds) items (1 + (items.length : Int))).flatten,
         items.map (·.chosenIds.length) ++ items.map (·.rejectIds.length),
         items.map (·.extra)⟩ := rfl

theorem map_length_sum_eq (f : PackItem → List Int) (items : List PackItem) :
    (items.map (fun it => (f it).length)).sum = (items.map f).flatten.length := by
  induction items with
  | nil => rfl
  | cons it rest ih => simp [ih]

theorem packedLens_sum (items : List PackItem) :
    (items.map (·.chosenIds.length) ++ items.map (·.rejectIds.length)).sum =
      (items.map (·.chosenIds) ++ items.map (·.rejectIds)).flatten.length := by
  rw [List.sum_append, List.flatten_append, List.length_append,
    map_length_sum_eq (·.chosenIds), map_length_sum_eq (·.rejectIds)]

theorem segRows_flatten_length (f : PackItem → List Int)
    (l : List PackItem) (k : Int) :
    (segRows f l k).flatten.length = (l.map f).flatten.length := by
  induction l generalizing k with
  | nil => rfl
  | cons it rest ih => simp [segRows, ih (k + 1)]

theorem packedSegs_length (items : List PackItem) (k1 k2 : Int) :
    (segRows (·.chosenIds) items k1 ++
      segRows (·.rejectIds) items k2).flatten.length =
      (items.map (·.chosenIds) ++ items.map (·.rejectIds)).flatten.length := by
  rw [List.flatten_append, List.flatten_append, List.length_append,
    List.length_append, segRows_flatten_length, segRows_flatten_length]

theorem pack_tail_spec (base segs : List Int) (lens : List Nat)
    (extras : List PyObj) (m : Nat) (padId : Int)
    (hsum : lens.sum = base.length) (hseg : segs.length = base.length)
    (out : PackOut)
    (hout : (if 1 < m ∧ base.length % m ≠ 0 then
        PackOut.mk (base ++ List.replicate (m - base.length % m) padId)
          (segs ++ List.replicate (m - base.length % m) 0) lens extras
      else PackOut.mk base segs lens extras) = out) :
    out.packedSeqLens.sum ≤ out.packedIds.length ∧
    out.packedIds.length ≤ out.packedSeqLens.sum + (m - 1) ∧
    (1 < m → out.packedIds.length % m = 0) ∧
    ((m ≤ 1 ∨ out.packedSeqLens.sum % m = 0) →
      out.packedIds.length = out.packedSeqLens.sum) ∧
    out.packedSegs.length = out.packedIds.length ∧
    out.packedIds.drop out.packedSeqLens.sum =
      List.replicate (out.packedIds.length - out.packedSeqLens.sum) padId ∧
    out.packedSegs.drop out.packedSeqLens.sum =
      List.replicate (out.packedSegs.length - out.packedSeqLens.sum) 0 := by
  subst hout
  by_cases hc : 1 < m ∧ base.length % m ≠ 0
  · rw [if_pos hc]
    obtain ⟨hm, hr⟩ := hc
    have hmod : base.length % m < m := Nat.mod_lt base.length (by omega)
    have hdiv : m * (base.length / m) + base.length % m = base.length :=
      Nat.div_add_mod base.length m
    have hmul : base.length + (m - base.length % m) =
        m * (base.length / m + 1) := by
      rw [Nat.mul_add, Nat.mul_one]
      omega
    have hsegdrop : (segs ++ List.replicate (m - base.length % m) 0).length -
        lens.sum = m - base.length % m := by
      simp [hseg, hsum]
    have hbasedrop : (base ++ List.replicate (m - base.length % m) padId).length -
        lens.sum = m - base.length % m := by
      simp [hsum]
    refine ⟨?_, ?_, ?_, ?_, ?_, ?_, ?_⟩
    · simp [hsum]
    · simp only [List.length_append, List.length_replicate, hsum]
      omega
    · intro
      simp only [List.length_append, List.length_replicate, hmul]
      exact Nat.mul_mod_right m (base.length / m + 1)
    · intro habs
      rcases habs with h1 | h1
      · omega
      · rw [hsum] at h1; exact absurd h1 hr
    · simp [hseg]
    · rw [hbasedrop, hsum, List.drop_left]
    · rw [hsegdrop, hsum, ← hseg, List.drop_left]
  · rw [if_neg hc]
    push_neg at hc
    refine ⟨?_, ?_, ?_, ?_, ?_, ?_, ?_⟩
    · simp [hsum]
    · simp [hsum]
    · intro hm
      simpa [hsum] using hc hm
    · intro
      simp [hsum]
    · simp [hseg]
    · simp [hsum, List.drop_length]
    · simp [hsum, ← hseg, List.drop_length]

/-- C7: the packed length is at least the recorded total and exceeds it by
less than `multiple_of`; with `multiple_of > 1` the packed length is a
multiple of it; with `multiple_of ≤ 1` or an already-aligned total, no
padding is added; the padding region is pad-token ids on the id row and
zeros on the segment row. -/
theorem c7_packed_length_alignment (items : List PackItem) (m : Nat)
    (padId : Int) (out : PackOut)
    (hout : packing_collate_core items m padId = out) :
    out.packedSeqLens.sum ≤ out.packedIds.length ∧
    out.packedIds.length ≤ out.packedSeqLens.sum + (m - 1) ∧
    (1 < m → out.packedIds.length % m = 0) ∧
    ((m ≤ 1 ∨ out.packedSeqLens.sum % m = 0) →
      out.packedIds.length = out.packedSeqLens.sum) ∧
    out.packedSegs.length = out.packedIds.length ∧
    out.packedIds.drop out.packedSeqLens.sum =
      List.replicate (out.packedIds.length - out.packedSeqLens.sum) padId ∧
    out.packedSegs.drop out.packedSeqLens.sum =
      List.replicate (out.packedSegs.length - out.packedSeqLens.sum) 0 := by
  subst hout
  exact pack_tail_spec _ _ _ _ m padId (packedLens_sum items)
    (packedSegs_length items 1 (1 + (items.length : Int))) _
    (packing_collate_core_def items m padId).symm

theorem c7_witness :
    (packing_collate_core
      [⟨[3, 4, 5], [6, 7], .scalar 0⟩, ⟨[8], [9, 9, 9], .scalar 1⟩] 8
      (-1)).packedSeqLens.sum ≤
      (packing_collate_core
      [⟨[3, 4, 5], [6, 7], .scalar 0⟩, ⟨[8], [9, 9, 9], .scalar 1⟩] 8
      (-1)).packedIds.length ∧
    (packing_collate_core
      [⟨[3, 4, 5], [6, 7], .scalar 0⟩, ⟨[8], [9, 9, 9], .scalar 1⟩] 8
      (-1)).packedIds.length ≤
      (packing_collate_core
      [⟨[3, 4, 5], [6, 7], .scalar 0⟩, ⟨[8], [9, 9, 9], .scalar 1⟩] 8
      (-1)).packedSeqLens.sum + (8 - 1) ∧
    (1 < 8 → (packing_collate_core
      [⟨[3, 4, 5], [6, 7], .scalar 0⟩, ⟨[8], [9, 9, 9], .scalar 1⟩] 8
      (-1)).packedIds.length % 8 = 0) ∧
    ((8 ≤ 1 ∨ (packing_collate_core
      [⟨[3, 4, 5], [6, 7], .scalar 0⟩, ⟨[8], [9, 9, 9], .scalar 1⟩] 8
      (-1)).packedSeqLens.sum % 8 = 0) →
      (packing_collate_core
      [⟨[3, 4, 5], [6, 7], .scalar 0⟩, ⟨[8], [9, 9, 9], .scalar 1⟩] 8
      (-1)).packedIds.length =
        (packing_collate_core
      [⟨[3, 4, 5], [6, 7], .scalar 0⟩, ⟨[8], [9, 9, 9], .scalar 1⟩] 8
      (-1)).packedSeqLens.sum) ∧
    (packing_collate_core
      [⟨[3, 4, 5], [6, 7], .scalar 0⟩, ⟨[8], [9, 9, 9], .scalar 1⟩] 8
      (-1)).packedSegs.length =
      (packing_collate_core
      [⟨[3, 4, 5], [6, 7], .scalar 0⟩, ⟨[8], [9, 9, 9], .scalar 1⟩] 8
      (-1)).packedIds.length ∧
    (packing_collate_core
      [⟨[3, 4, 5], [6, 7], .scalar 0⟩, ⟨[8], [9, 9, 9], .scalar 1⟩] 8
      (-1)).packedIds.drop
        (packing_collate_core
      [⟨[3, 4, 5], [6, 7], .scalar 0⟩, ⟨[8], [9, 9, 9], .scalar 1⟩] 8
      (-1)).packedSeqLens.sum =
      List.replicate ((packing_collate_core
      [⟨[3, 4, 5], [6, 7], .scalar 0⟩, ⟨[8], [9, 9, 9], .scalar 1⟩] 8
      (-1)).packedIds.length -
        (packing_collate_core
      [⟨[3, 4, 5], [6, 7], .scalar 0⟩, ⟨[8], [9, 9, 9], .scalar 1⟩] 8
      (-1)).packedSeqLens.sum) (-1) ∧
    (packing_collate_core
      [⟨[3, 4, 5], [6, 7], .scalar 0⟩, ⟨[8], [9, 9, 9], .scalar 1⟩] 8
      (-1)).packedSegs.drop
        (packing_collate_core
      [⟨[3, 4, 5], [6, 7], .scalar 0⟩, ⟨[8], [9, 9, 9], .scalar 1⟩] 8
      (-1)).packedSeqLens.sum =
      List.replicate ((packing_collate_core
      [⟨[3, 4, 5], [6, 7], .scalar 0⟩, ⟨[8], [9, 9, 9], .scalar 1⟩] 8
      (-1)).packedSegs.length -
        (packing_collate_core
      [⟨[3, 4, 5], [6, 7], .scalar 0⟩, ⟨[8], [9, 9, 9], .scalar 1⟩] 8
      (-1)).packedSeqLens.sum) 0 :=
  c7_packed_length_alignment
    [⟨[3, 4, 5], [6, 7], .scalar 0⟩, ⟨[8], [9, 9, 9], .scalar 1⟩] 8 (-1) _ rfl

theorem segRows_eq_segSpecFrom (f : PackItem → List Int) (l : List PackItem)
    (k : Int) :
    segRows f l k = (segSpecFrom f l k).map (fun p => List.replicate p.1 p.2) := by
  induction l generalizing k with
  | nil => rfl
  | cons it rest ih => simp [segRows, segSpecFrom, ih (k + 1)]

theorem segSpecFrom_fst (f : PackItem → List Int) (l : List PackItem) (k : Int) :
    (segSpecFrom f l k).map Prod.fst = l.map (fun it => (f it).length) := by
  induction l generalizing k with
  | nil => rfl
  | cons it rest ih => simp [segSpecFrom, ih (k + 1)]

theorem segSpecFrom_snd (f : PackItem → List Int) (l : List PackItem) (k : Int) :
    (segSpecFrom f l k).map Prod.snd = intRange k l.length := by
  induction l generalizing k with
  | nil => rfl
  | cons it rest ih => simp [segSpecFrom, intRange, ih (k + 1)]

theorem segSpecFrom_length (f : PackItem → List Int) (l : List PackItem)
    (k : Int) : (segSpecFrom f l k).length = l.length := by
  induction l generalizing k with
  | nil => rfl
  | cons it rest ih => simp [segSpecFrom, ih (k + 1)]

theorem segSpecFrom_mem {f : PackItem → List Int} {l : List PackItem} {k : Int}
    {p : Nat × Int} (hp : p ∈ segSpecFrom f l k) :
    ∃ it ∈ l, p.1 = (f it).length := by
  induction l generalizing k with
  | nil => simp [segSpecFrom] at hp
  | cons it rest ih =>
    rw [segSpecFrom, List.mem_cons] at hp
    rcases hp with rfl | hp
    · exact ⟨it, by simp, rfl⟩
    · obtain ⟨it', hit', heq⟩ := ih hp
      exact ⟨it', by simp [hit'], heq⟩

theorem mem_intRange {a k : Int} {n : Nat} :
    a ∈ intRange k n ↔ k ≤ a ∧ a < k + n := by
  induction n generalizing k with
  | zero => simp [intRange]
  | succ n ih =>
    simp only [intRange, List.mem_cons, ih]
    push_cast
    omega

theorem intRange_nodup (k : Int) (n : Nat) : (intRange k n).Nodup := by
  induction n generalizing k with
  | zero => simp [intRange]
  | succ n ih =>
    exact List.nodup_cons.mpr
      ⟨fun hmem => by have := mem_intRange.mp hmem; omega, ih (k + 1)⟩

/-- C6: the packed id row is all chosen sequences in list order followed by
all rejected sequences in list order (then alignment padding); the segment
row is the concatenation of constant runs — one per sequence — whose
lengths are the recorded `packed_seq_lens` and whose ids are `1..N` for the
chosen sequences and `N+1..2N` for the rejected ones: `2 × N` runs with
pairwise distinct positive ids (non-empty when every sequence is
non-empty), while pad positions carry segment id 0. -/
theorem c6_segment_partition (items : List PackItem) (m : Nat) (padId : Int)
    (hfull : ∀ it ∈ items, it.chosenIds ≠ [] ∧ it.rejectIds ≠ []) :
    ∃ padLen,
      (packing_collate_core items m padId).packedIds =
        ((items.map (·.chosenIds)).flatten ++ (items.map (·.rejectIds)).flatten)
          ++ List.replicate padLen padId ∧
      (packing_collate_core items m padId).packedSegs =
        ((segSpec items).map (fun p => List.replicate p.1 p.2)).flatten
          ++ List.replicate padLen 0 ∧
      (packing_collate_core items m padId).packedSeqLens =
        (segSpec items).map Prod.fst ∧
      (segSpec items).length = 2 * items.length ∧
      ((segSpec items).map Prod.snd).Nodup ∧
      (∀ s ∈ (segSpec items).map Prod.snd, 0 < s) ∧
      (∀ p ∈ segSpec items, 0 < p.1) := by
  have hbase : (items.map (·.chosenIds) ++ items.map (·.rejectIds)).flatten =
      (items.map (·.chosenIds)).flatten ++ (items.map (·.rejectIds)).flatten :=
    List.flatten_append _ _
  have hsegs : (segRows (·.chosenIds) items 1 ++
      segRows (·.rejectIds) items (1 + (items.length : Int))).flatten =
      ((segSpec items).map (fun p => List.replicate p.1 p.2)).flatten := by
    rw [segSpec, List.map_append, List.flatten_append, List.flatten_append,
      segRows_eq_segSpecFrom, segRows_eq_segSpecFrom]
  have hlens : items.map (·.chosenIds.length) ++ items.map (·.rejectIds.length) =
      (segSpec items).map Prod.fst := by
    rw [segSpec, List.map_append, segSpecFrom_fst, segSpecFrom_fst]
  have hsnd : (segSpec items).map Prod.snd =
      intRange 1 items.length ++
        intRange (1 + (items.length : Int)) items.length := by
    rw [segSpec, List.map_append, segSpecFrom_snd, segSpecFrom_snd]
  have hlen2 : (segSpec items).length = 2 * items.length := by
    simp only [segSpec, List.length_append, segSpecFrom_length]
    omega
  have hnodup : ((segSpec items).map Prod.snd).Nodup := by
    rw [hsnd]
    refine List.Nodup.append (intRange_nodup _ _) (intRange_nodup _ _) ?_
    intro a ha1 ha2
    have h1 := mem_intRange.mp ha1
    have h2 := mem_intRange.mp ha2
    omega
  have hposid : ∀ s ∈ (segSpec items).map Prod.snd, 0 < s := by
    intro s hs
    rw [hsnd, List.mem_append] at hs
    rcases hs with hs | hs <;> have hb := mem_intRange.mp hs <;> omega
  have hposlen : ∀ p ∈ segSpec items, 0 < p.1 := by
    intro p hp
    rw [segSpec, List.mem_append] at hp
    rcases hp with hp | hp
    · obtain ⟨it, hit, heq⟩ := segSpecFrom_mem hp
      rw [heq]
      exact List.length_pos.mpr (hfull it hit).1
    · obtain ⟨it, hit, heq⟩ := segSpecFrom_mem hp
      rw [heq]
      exact List.length_pos.mpr (hfull it hit).2
  rw [packing_collate_core_def]
  by_cases hc : 1 < m ∧
      ((items.map (·.chosenIds) ++ items.map (·.rejectIds)).flatten.length % m ≠ 0)
  · rw [if_pos hc]
    exact ⟨m - (items.map (·.chosenIds) ++
        items.map (·.rejectIds)).flatten.length % m,
      by rw [hbase], by rw [hsegs], hlens, hlen2, hnodup, hposid, hposlen⟩
  · rw [if_neg hc]
    exact ⟨0, by simp [hbase], by simp [hsegs], hlens, hlen2, hnodup, hposid,
      hposlen⟩

theorem c6_witness :
    ∃ padLen,
      (packing_collate_core
        [⟨[3, 4, 5], [6, 7], .scalar 0⟩, ⟨[8], [9, 9, 9], .scalar 1⟩] 8
        (-1)).packedIds =
        (([[3, 4, 5], [8]] : List (List Int)).flatten ++
          ([[6, 7], [9, 9, 9]] : List (List Int)).flatten)
          ++ List.replicate padLen (-1) ∧
      (packing_collate_core
        [⟨[3, 4, 5], [6, 7], .scalar 0⟩, ⟨[8], [9, 9, 9], .scalar 1⟩] 8
        (-1)).packedSegs =
        ((segSpec [⟨[3, 4, 5], [6, 7], .scalar 0⟩,
          ⟨[8], [9, 9, 9], .scalar 1⟩]).map
            (fun p => List.replicate p.1 p.2)).flatten
          ++ List.replicate padLen 0 ∧
      (packing_collate_core
        [⟨[3, 4, 5], [6, 7], .scalar 0⟩, ⟨[8], [9, 9, 9], .scalar 1⟩] 8
        (-1)).packedSeqLens =
        (segSpec [⟨[3, 4, 5], [6, 7], .scalar 0⟩,
          ⟨[8], [9, 9, 9], .scalar 1⟩]).map Prod.fst ∧
      (segSpec [⟨[3, 4, 5], [6, 7], .scalar 0⟩,
        ⟨[8], [9, 9, 9], .scalar 1⟩]).length = 2 * 2 ∧
      ((segSpec [⟨[3, 4, 5], [6, 7], .scalar 0⟩,
        ⟨[8], [9, 9, 9], .scalar 1⟩]).map Prod.snd).Nodup ∧
      (∀ s ∈ (segSpec [⟨[3, 4, 5], [6, 7], .scalar 0⟩,
        ⟨[8], [9, 9, 9], .scalar 1⟩]).map Prod.snd, 0 < s) ∧
      (∀ p ∈ segSpec [⟨[3, 4, 5], [6, 7], .scalar 0⟩,
        ⟨[8], [9, 9, 9], .scalar 1⟩], 0 < p.1) :=
  c6_segment_partition
    [⟨[3, 4, 5], [6, 7], .scalar 0⟩, ⟨[8], [9, 9, 9], .scalar 1⟩] 8 (-1)
    (by decide)

/-- C10: `packing_collate_fn` destructures each item into exactly five
values, while `RewardDataset.__getitem__` returns 7-tuples and
`QwenRewardDataset.__getitem__` returns 11-tuples; on any non-empty item
list of such tuples the unpacking raises `ValueError` before any packed
batch is produced. -/
theorem c10_packing_unpack_arity (itemList : List (List PyObj)) (m : Nat)
    (padId : Int) (hne : itemList ≠ [])
    (h : ∀ t ∈ itemList, (∃ o, t = rd_item_tuple o) ∨
      (∃ o q, t = qwen_item_tuple o q)) :
    packing_collate_fn itemList m padId = .error .valueError := by
  cases itemList with
  | nil => exact absurd rfl hne
  | cons t rest =>
    rcases h t (List.mem_cons_self t rest) with ⟨o, rfl⟩ | ⟨o, q, rfl⟩ <;> rfl

theorem c10_witness :
    packing_collate_fn [rd_item_tuple ⟨[1], [1], [1], [1], [1], [1], 0⟩] 1 0
      = .error .valueError :=
  c10_packing_unpack_arity [rd_item_tuple ⟨[1], [1], [1], [1], [1], [1], 0⟩] 1 0
    (by simp)
    (fun t ht => by
      rw [List.mem_singleton] at ht
      exact Or.inl ⟨⟨[1], [1], [1], [1], [1], [1], 0⟩, ht⟩)

end OpenRLHF
